import Mathlib

/-!
Verification of the `ai-agent-communication` repository (files
`tmux_message.py` and `agent_discovery.py`).

The Python code is shallowly embedded: external `subprocess` invocations are
modelled by a `World` environment that fixes, for each invocation, either a
raised exception or a completed process (return code and captured stdout).
Functions with side effects return, besides the value the Python function
returns to its caller, an explicit record of the externally observable
effects (the sequence of multiplexer calls issued, the counters printed to
the console).  `time.sleep` pacing has no observable effect in this model.

Python string primitives used by the code (`str.strip`, `str.split('\n')`,
`str.split(':', 2)`, `' '.join`) are embedded as executable functions on
`String` (via the underlying `List Char`).
-/

namespace AgentComm

/-- A tmux pane as parsed from one line of `tmux list-panes` output:
the dict `{'pane_id': ..., 'command': ..., 'path': ...}` built in
`get_tmux_panes` (the discovery server's dict `{'pane', 'command', 'path'}`
carries the same three fields and is modelled by the same structure). -/
structure Pane where
  pane_id : String
  command : String
  path : String
deriving DecidableEq, Repr

/-- Outcome of one `subprocess.run` invocation: either the call raised an
exception (`exn`, e.g. `FileNotFoundError` or `TimeoutExpired`), or it
completed with a return code and captured stdout. -/
inductive SubRes where
  | exn : SubRes
  | ret (code : Int) (stdout : String) : SubRes
deriving DecidableEq, Repr

/-- One external multiplexer invocation, as recorded in an effect trace. -/
inductive Call where
  | listPanes : Call
  | sendKeys (target : String) (keys : List String) : Call
  | displayMsg : Call
  | listSessions : Call
deriving DecidableEq, Repr

/-- The external environment: the outcome of the `tmux list-panes` query
(`listPanesRes`, used by the CLI), of `tmux display-message` (`displayRes`),
of the discovery server's own `tmux list-panes` query with its 2 s timeout
(`liveRes`), and of the n-th `tmux send-keys` invocation (`sendRes n`,
indexed by the number of send-keys calls already made). -/
structure World where
  listPanesRes : SubRes
  displayRes : SubRes
  liveRes : SubRes
  sendRes : Nat → SubRes

/-! ### Python string primitives -/

/-- The characters Python's `str.strip()` removes. -/
def pyIsSpace (c : Char) : Bool :=
  c = ' ' || c = '\t' || c = '\n' || c = '\r' || c = '\x0b' || c = '\x0c'

/-- Python `s.strip()`: drop leading and trailing whitespace. -/
def pyStrip (s : String) : String :=
  ⟨((s.data.dropWhile pyIsSpace).reverse.dropWhile pyIsSpace).reverse⟩

/-- Split a character list at every occurrence of `sep`, but at most `cap`
times; the running field is accumulated (reversed) in `acc`.  This is
Python's `str.split(sep, maxsplit)` for a single-character separator. -/
def splitCapAux (sep : Char) : Nat → List Char → List Char → List (List Char)
  | _, [], acc => [acc.reverse]
  | cap, c :: cs, acc =>
    if c = sep then
      match cap with
      | 0 => splitCapAux sep 0 cs (c :: acc)
      | n + 1 => acc.reverse :: splitCapAux sep n cs []
    else splitCapAux sep cap cs (c :: acc)

/-- Python `s.split(sep, 2)`: at most two splits, so at most three fields;
everything after the second separator stays in the third field. -/
def pySplit2 (sep : Char) (s : String) : List String :=
  (splitCapAux sep 2 s.data []).map fun cs => ⟨cs⟩

/-- Split at every occurrence of `sep` (no cap). -/
def splitAllAux (sep : Char) : List Char → List Char → List (List Char)
  | [], acc => [acc.reverse]
  | c :: cs, acc =>
    if c = sep then acc.reverse :: splitAllAux sep cs []
    else splitAllAux sep cs (c :: acc)

/-- Python `s.split('\n')` (note: the empty string yields `[""]`). -/
def pySplitNL (s : String) : List String :=
  (splitAllAux '\n' s.data []).map fun cs => ⟨cs⟩

/-- Python `' '.join(parts)`. -/
def pyJoin (parts : List String) : String :=
  String.intercalate " " parts

/-! ### `tmux_message.py`: pane inventory reader -/

/-- The body of the `for line in ...` loop of `get_tmux_panes`, for one
line: skip the line if it is falsy (empty), split on `':'` capped at 3
fields, and keep it only if exactly 3 fields result. -/
def parseTmuxLine? (line : String) : Option Pane :=
  if line = "" then none
  else
    match pySplit2 ':' line with
    | [a, b, c] => some ⟨a, b, c⟩
    | _ => none

/-- The accumulation loop of `get_tmux_panes`: `panes.append(...)` for each
line that parses. -/
def collectPanes : List String → List Pane
  | [] => []
  | line :: ls =>
    match parseTmuxLine? line with
    | some p => p :: collectPanes ls
    | none => collectPanes ls

/-- `get_tmux_panes()`: run `tmux list-panes -a -F ...`; on a non-zero exit
return `[]`, on any exception return `[]` (the `except Exception` arm),
otherwise parse `result.stdout.strip().split('\n')` line by line. -/
def get_tmux_panes (w : World) : List Pane :=
  match w.listPanesRes with
  | .exn => []
  | .ret code out =>
    if code ≠ 0 then []
    else collectPanes (pySplitNL (pyStrip out))

/-- The scan loop of `find_agent` over an already-obtained pane list:
return the first pane whose `command` and `path` both match. -/
def findAgentIn : List Pane → String → String → Option Pane
  | [], _, _ => none
  | p :: ps, app, dir =>
    if p.command = app ∧ p.path = dir then some p
    else findAgentIn ps app dir

/-- `find_agent(app_name, target_dir)`: query the inventory, then scan it. -/
def find_agent (w : World) (app_name target_dir : String) : Option Pane :=
  findAgentIn (get_tmux_panes w) app_name target_dir

/-- `get_current_pane_info()`: run `tmux display-message -p ...`; on return
code 0, strip the output and split it on `':'` capped at 3 fields; if
exactly 3 fields result, that is the sender pane; otherwise (or on any
exception) `None`. -/
def get_current_pane_info (w : World) : Option Pane :=
  match w.displayRes with
  | .exn => none
  | .ret code out =>
    if code = 0 then
      match pySplit2 ':' (pyStrip out) with
      | [a, b, c] => some ⟨a, b, c⟩
      | _ => none
    else none

/-- `format_message_with_metadata(message, sender_info)`: pure; `None`
sender echoes the message, otherwise an f-string provenance header is
prepended. -/
def format_message_with_metadata (message : String) (sender : Option Pane) : String :=
  match sender with
  | none => message
  | some s =>
      "[FROM: " ++ s.command ++ " in " ++ s.path ++ " (pane " ++ s.pane_id ++ ")]\n"
        ++ message

/-! ### `tmux_message.py`: delivery engine

Each delivery function returns the Python function's boolean return value
(`ok`) together with its effect trace: the `tmux send-keys` invocations
issued (`calls`) and the updated send-keys invocation counter (`next`),
which indexes `World.sendRes`.  An exception raised by any invocation is
caught by the function's `except` arm (result `False`) and stops the
remaining invocations of that function. -/

/-- Result of `send_message_to_pane` / `execute_command_in_pane`. -/
structure SendRes where
  ok : Bool
  calls : List Call
  next : Nat
deriving Repr

/-- `send_message_to_pane(pane_id, message)`: send the message as literal
keystrokes, sleep, send `C-m`, sleep, send `C-m` again; return
`result1.returncode == 0 and (result2.returncode == 0 or
result3.returncode == 0)`. -/
def send_message_to_pane (w : World) (k : Nat) (pane_id message : String) : SendRes :=
  match w.sendRes k with
  | .exn => ⟨false, [.sendKeys pane_id [message]], k + 1⟩
  | .ret c1 _ =>
    match w.sendRes (k + 1) with
    | .exn => ⟨false, [.sendKeys pane_id [message], .sendKeys pane_id ["C-m"]], k + 2⟩
    | .ret c2 _ =>
      match w.sendRes (k + 2) with
      | .exn =>
          ⟨false,
           [.sendKeys pane_id [message], .sendKeys pane_id ["C-m"],
            .sendKeys pane_id ["C-m"]], k + 3⟩
      | .ret c3 _ =>
          ⟨(c1 == 0) && ((c2 == 0) || (c3 == 0)),
           [.sendKeys pane_id [message], .sendKeys pane_id ["C-m"],
            .sendKeys pane_id ["C-m"]], k + 3⟩

/-- The `for pane in panes:` loop of `send_to_all_panes`: returns the value
of `success_count`, the list of pane ids passed to `send_message_to_pane`
(in attempt order), the send-keys trace, and the updated counter. -/
def sendLoop (w : World) (message : String) :
    Nat → List Pane → Nat × List String × List Call × Nat
  | k, [] => (0, [], [], k)
  | k, p :: ps =>
    let r := send_message_to_pane w k p.pane_id message
    let rest := sendLoop w message r.next ps
    ((if r.ok then 1 else 0) + rest.1, p.pane_id :: rest.2.1,
     r.calls ++ rest.2.2.1, rest.2.2.2)

/-- Result of `send_to_all_panes`.  `ok` is the Python return value
(`success_count > 0`); `successes` and `total` are the counters shown in
the printed line `"Message sent to {success_count}/{len(panes)} panes"`;
`noPanes` records whether `"No tmux panes found"` was printed to stderr
(the empty-inventory early return). -/
structure BroadcastRes where
  ok : Bool
  successes : Nat
  total : Nat
  attempts : List String
  noPanes : Bool
  calls : List Call
  next : Nat
deriving Repr

/-- `send_to_all_panes(message)`: query the inventory once; if empty, print
to stderr and return `False`; otherwise attempt `send_message_to_pane` on
every pane of the snapshot and return `success_count > 0`. -/
def send_to_all_panes (w : World) (k : Nat) (message : String) : BroadcastRes :=
  let panes := get_tmux_panes w
  if panes.isEmpty then ⟨false, 0, 0, [], true, [.listPanes], k⟩
  else
    let r := sendLoop w message k panes
    ⟨decide (0 < r.1), r.1, panes.length, r.2.1, false, .listPanes :: r.2.2.1, r.2.2.2⟩

/-- `execute_command_in_pane(pane_id, command)`: one combined
`send-keys command C-m` invocation; success is its return code being 0. -/
def execute_command_in_pane (w : World) (k : Nat) (pane_id command : String) : SendRes :=
  match w.sendRes k with
  | .exn => ⟨false, [.sendKeys pane_id [command, "C-m"]], k + 1⟩
  | .ret c _ => ⟨c == 0, [.sendKeys pane_id [command, "C-m"]], k + 1⟩

/-! ### `agent_discovery.py`: discovery parser -/

/-- `agents[cmd].append(entry)` preceded by `if cmd not in agents:
agents[cmd] = []`, on the insertion-ordered dict modelled as an
association list. -/
def dictAppend (d : List (String × List Pane)) (key : String) (v : Pane) :
    List (String × List Pane) :=
  match d with
  | [] => [(key, [v])]
  | (k, vs) :: rest =>
    if k = key then (k, vs ++ [v]) :: rest
    else (k, vs) :: dictAppend rest key v

/-- The body of the `for line in ...` loop of `detect_agents`: skip lines
that are whitespace-only, split the (unstripped) line on `':'` capped at 3
fields, and on exactly 3 fields append `{'pane': pane, 'path':
path.strip(), 'command': cmd}` under key `cmd`. -/
def detectStep (d : List (String × List Pane)) (line : String) :
    List (String × List Pane) :=
  if pyStrip line = "" then d
  else
    match pySplit2 ':' line with
    | [pane, cmd, path] => dictAppend d cmd ⟨pane, cmd, pyStrip path⟩
    | _ => d

/-- `detect_agents(tmux_output)`: group the parsed pane lines by running
command, in line order. -/
def detect_agents (out : String) : List (String × List Pane) :=
  (pySplitNL (pyStrip out)).foldl detectStep []

/-- `get_live_agents()`: the discovery server's query (2 s timeout); on
return code 0 parse the stdout, otherwise (non-zero exit, timeout,
missing binary, any other exception) return the empty mapping. -/
def get_live_agents (w : World) : List (String × List Pane) :=
  match w.liveRes with
  | .exn => []
  | .ret code out =>
    if code = 0 then detect_agents out else []

/-- All pane entries stored in a discovery mapping, groups flattened. -/
def dictEntries (d : List (String × List Pane)) : List Pane :=
  (d.map Prod.snd).flatten

/-- A pane triple with its path stripped the way `detect_agents` strips it. -/
def stripPath (p : Pane) : Pane :=
  ⟨p.pane_id, p.command, pyStrip p.path⟩

/-! ### `tmux_message.py`: command-line interface -/

/-- Observable outcome of one `main(argv)` run: the process exit code (a
fall-through return from `main` exits the interpreter with code 0), whether
the usage text (the module docstring) was printed, and the multiplexer
invocations issued. -/
structure CliOut where
  exitCode : Nat
  usage : Bool
  calls : List Call
deriving DecidableEq, Repr

/-- `main(argv)`: the elif chain over `argv` of `tmux_message.py`.  Branches
in source order: too-short argv prints usage and exits 1; `--all` (length
at least 3); `--pane` (length at least 4); `--command` (needs `'--pane' in
argv` and length at least 5); `--status`; the legacy
`<agent> <directory> <message>` form (length at least 4); otherwise usage
and exit 1. -/
def mainRun (w : World) : List String → CliOut
  | [] => ⟨1, true, []⟩
  | [_] => ⟨1, true, []⟩
  | prog :: a1 :: rest =>
    if a1 = "--all" ∧ 1 ≤ rest.length then
      let formatted :=
        format_message_with_metadata (pyJoin rest) (get_current_pane_info w)
      let r := send_to_all_panes w 0 formatted
      ⟨if r.ok then 0 else 1, false, Call.displayMsg :: r.calls⟩
    else if a1 = "--pane" ∧ 2 ≤ rest.length then
      match rest with
      | pid :: ms =>
        let formatted :=
          format_message_with_metadata (pyJoin ms) (get_current_pane_info w)
        let r := send_message_to_pane w 0 pid formatted
        ⟨if r.ok then 0 else 1, false, Call.displayMsg :: r.calls⟩
      | [] => ⟨1, true, []⟩
    else if a1 = "--command" ∧ "--pane" ∈ prog :: a1 :: rest ∧
        5 ≤ (prog :: a1 :: rest).length then
      if (prog :: a1 :: rest).indexOf "--pane" + 1 < (prog :: a1 :: rest).length then
        let pane_id :=
          (prog :: a1 :: rest).getD ((prog :: a1 :: rest).indexOf "--pane" + 1) ""
        let command := pyJoin (((prog :: a1 :: rest).drop 2).take
          ((prog :: a1 :: rest).indexOf "--pane" - 2))
        let r := execute_command_in_pane w 0 pane_id command
        ⟨if r.ok then 0 else 1, false, r.calls⟩
      else ⟨1, false, []⟩
    else if a1 = "--status" then
      ⟨0, false, [.listSessions, .listPanes]⟩
    else if 2 ≤ rest.length then
      match rest with
      | dir :: ms =>
        match find_agent w a1 dir with
        | none => ⟨1, false, [.listPanes]⟩
        | some agent =>
          let formatted :=
            format_message_with_metadata (pyJoin ms) (get_current_pane_info w)
          let r := send_message_to_pane w 0 agent.pane_id formatted
          ⟨if r.ok then 0 else 1, false, Call.listPanes :: Call.displayMsg :: r.calls⟩
      | [] => ⟨1, true, []⟩
    else ⟨1, true, []⟩

/-- An `argv` that matches one of the recognized CLI forms (the conditions
of the elif chain of `main`, written out independently). -/
def recognizable (argv : List String) : Prop :=
  2 ≤ argv.length ∧
    (argv.getD 1 "" = "--all" ∧ 3 ≤ argv.length ∨
     argv.getD 1 "" = "--pane" ∧ 4 ≤ argv.length ∨
     argv.getD 1 "" = "--command" ∧ "--pane" ∈ argv ∧ 5 ≤ argv.length ∨
     argv.getD 1 "" = "--status" ∨
     4 ≤ argv.length)

instance (argv : List String) : Decidable (recognizable argv) := by
  unfold recognizable
  infer_instance

/-! ### Helper lemmas -/

theorem splitCapAux_zero (sep : Char) (l : List Char) :
    ∀ acc, splitCapAux sep 0 l acc = [acc.reverse ++ l] := by
  induction l with
  | nil => intro acc; simp [splitCapAux]
  | cons c cs ih =>
    intro acc
    by_cases h : c = sep
    · simp [splitCapAux, h, ih]
    · simp [splitCapAux, h, ih]

theorem splitCapAux_cons_ne (sep c : Char) (cap : Nat) (cs acc : List Char)
    (h : ¬(c = sep)) :
    splitCapAux sep cap (c :: cs) acc = splitCapAux sep cap cs (c :: acc) := by
  simp [splitCapAux, h]

theorem splitCapAux_sep (sep : Char) (cap : Nat) (A : List Char) :
    ∀ (rest acc : List Char), sep ∉ A →
      splitCapAux sep (cap + 1) (A ++ sep :: rest) acc =
        (acc.reverse ++ A) :: splitCapAux sep cap rest [] := by
  induction A with
  | nil => intro rest acc _; simp [splitCapAux]
  | cons a A ih =>
    intro rest acc h
    have ha : ¬(a = sep) := fun he => h (by rw [he]; exact List.mem_cons_self _ _)
    have hrec := ih rest (a :: acc) (fun hm => h (List.mem_cons_of_mem _ hm))
    show splitCapAux sep (cap + 1) (a :: (A ++ sep :: rest)) acc =
      (acc.reverse ++ a :: A) :: splitCapAux sep cap rest []
    rw [splitCapAux_cons_ne sep a (cap + 1) (A ++ sep :: rest) acc ha, hrec]
    simp

theorem collectPanes_eq_filterMap (ls : List String) :
    collectPanes ls = ls.filterMap parseTmuxLine? := by
  induction ls with
  | nil => rfl
  | cons line ls ih =>
    simp only [collectPanes, List.filterMap_cons]
    cases parseTmuxLine? line <;> simp [ih]

theorem pySplit2_wellformed (a b c : String)
    (h1 : ':' ∉ a.data) (h2 : ':' ∉ b.data) :
    pySplit2 ':' (a ++ ":" ++ b ++ ":" ++ c) = [a, b, c] := by
  have hd : (a ++ ":" ++ b ++ ":" ++ c).data =
      a.data ++ ':' :: (b.data ++ ':' :: c.data) := by
    simp [String.data_append]
  unfold pySplit2
  rw [hd, splitCapAux_sep ':' 1 a.data _ [] h1,
    splitCapAux_sep ':' 0 b.data _ [] h2, splitCapAux_zero]
  simp

theorem findAgentIn_eq_none_iff (l : List Pane) (c p : String) :
    findAgentIn l c p = none ↔ ∀ x ∈ l, ¬(x.command = c ∧ x.path = p) := by
  induction l with
  | nil => simp [findAgentIn]
  | cons hd tl ih =>
    by_cases h : hd.command = c ∧ hd.path = p
    · simp [findAgentIn, h]
    · simp [findAgentIn, h, ih]
      intro _ hc hp
      exact h ⟨hc, hp⟩

theorem findAgentIn_eq_some (l : List Pane) (c p : String) (pa : Pane) :
    findAgentIn l c p = some pa →
      pa.command = c ∧ pa.path = p ∧
        ∃ l1 l2, l = l1 ++ pa :: l2 ∧ ∀ x ∈ l1, ¬(x.command = c ∧ x.path = p) := by
  induction l with
  | nil => intro h; simp [findAgentIn] at h
  | cons hd tl ih =>
    intro h
    by_cases hc : hd.command = c ∧ hd.path = p
    · rw [findAgentIn, if_pos hc] at h
      obtain rfl : hd = pa := by injection h
      exact ⟨hc.1, hc.2, [], tl, rfl, by simp⟩
    · rw [findAgentIn, if_neg hc] at h
      obtain ⟨h1, h2, l1, l2, rfl, hnone⟩ := ih h
      refine ⟨h1, h2, hd :: l1, l2, rfl, ?_⟩
      intro x hx
      rcases List.mem_cons.mp hx with rfl | hx
      · exact hc
      · exact hnone x hx

/-! ### Claim theorems -/

/-- C6: `format_message_with_metadata` is a pure total function; with an
absent sender it echoes the body unchanged (identity law); with a present
sender the output is exactly the provenance header followed by the body,
hence it starts with `"[FROM: "` and contains the sender's command, path,
and pane id. -/
theorem C6_format_message :
    (∀ b : String, format_message_with_metadata b none = b) ∧
    (∀ (b : String) (s : Pane),
      format_message_with_metadata b (some s) =
        "[FROM: " ++ s.command ++ " in " ++ s.path ++ " (pane " ++ s.pane_id
          ++ ")]\n" ++ b ∧
      (∃ t, format_message_with_metadata b (some s) = "[FROM: " ++ t) ∧
      (∃ u v, format_message_with_metadata b (some s) = u ++ s.command ++ v) ∧
      (∃ u v, format_message_with_metadata b (some s) = u ++ s.path ++ v) ∧
      (∃ u v, format_message_with_metadata b (some s) = u ++ s.pane_id ++ v)) := by
  refine ⟨fun b => rfl, fun b s => ⟨by simp [format_message_with_metadata], ?_, ?_, ?_, ?_⟩⟩
  · exact ⟨s.command ++ " in " ++ s.path ++ " (pane " ++ s.pane_id ++ ")]\n" ++ b,
      by simp [format_message_with_metadata, String.append_assoc]⟩
  · exact ⟨"[FROM: ", " in " ++ s.path ++ " (pane " ++ s.pane_id ++ ")]\n" ++ b,
      by simp [format_message_with_metadata, String.append_assoc]⟩
  · exact ⟨"[FROM: " ++ s.command ++ " in ", " (pane " ++ s.pane_id ++ ")]\n" ++ b,
      by simp [format_message_with_metadata, String.append_assoc]⟩
  · exact ⟨"[FROM: " ++ s.command ++ " in " ++ s.path ++ " (pane ", ")]\n" ++ b,
      by simp [format_message_with_metadata, String.append_assoc]⟩

/-- C7: `find_agent` scans the inventory snapshot and returns the first
pane whose command and path both match exactly; `none` is the result
exactly when no pane matches, in particular on an empty inventory. -/
theorem C7_find_agent_first_match :
    ∀ (l : List Pane) (c p : String),
      findAgentIn [] c p = none ∧
      (findAgentIn l c p = none ↔ ∀ x ∈ l, ¬(x.command = c ∧ x.path = p)) ∧
      (∀ pa, findAgentIn l c p = some pa →
        pa.command = c ∧ pa.path = p ∧
          ∃ l1 l2, l = l1 ++ pa :: l2 ∧
            ∀ x ∈ l1, ¬(x.command = c ∧ x.path = p)) ∧
      (∀ w : World, find_agent w c p = findAgentIn (get_tmux_panes w) c p) := by
  intro l c p
  exact ⟨rfl, findAgentIn_eq_none_iff l c p,
    fun pa => findAgentIn_eq_some l c p pa, fun w => rfl⟩

/-- Inventory sample for witnesses: two panes. -/
def sampleInv : List Pane :=
  [⟨"%1", "claude", "/home/user"⟩, ⟨"%2", "node", "/srv/app"⟩]

/-- Witness for C7: on the two-pane sample inventory,
`resolve_by_name("claude", "/home/user")` yields the `%1` pane with the
first-match decomposition, and `resolve_by_name("claude", "/tmp")` is
`none`. -/
theorem C7_witness :
    (⟨"%1", "claude", "/home/user"⟩ : Pane).command = "claude" ∧
    (⟨"%1", "claude", "/home/user"⟩ : Pane).path = "/home/user" ∧
    (∃ l1 l2, sampleInv = l1 ++ (⟨"%1", "claude", "/home/user"⟩ : Pane) :: l2 ∧
      ∀ x ∈ l1, ¬(x.command = "claude" ∧ x.path = "/home/user")) ∧
    findAgentIn sampleInv "claude" "/tmp" = none := by
  have h := C7_find_agent_first_match sampleInv "claude" "/home/user"
  have h2 := (h.2.2.1 ⟨"%1", "claude", "/home/user"⟩ (by decide))
  have h3 := C7_find_agent_first_match sampleInv "claude" "/tmp"
  exact ⟨h2.1, h2.2.1, h2.2.2, h3.2.1.mpr (by decide)⟩

/-- C5: `get_tmux_panes` (and the discovery reader `get_live_agents`) never
propagates a failure of the external query: a raised exception or a
non-zero exit status yields the empty inventory (empty mapping). -/
theorem C5_list_panes_never_raises :
    ∀ w : World,
      (w.listPanesRes = SubRes.exn → get_tmux_panes w = []) ∧
      (∀ c s, w.listPanesRes = SubRes.ret c s → c ≠ 0 → get_tmux_panes w = []) ∧
      (w.liveRes = SubRes.exn → get_live_agents w = []) ∧
      (∀ c s, w.liveRes = SubRes.ret c s → c ≠ 0 → get_live_agents w = []) := by
  intro w
  refine ⟨fun h => by simp [get_tmux_panes, h],
    fun c s h hc => by simp [get_tmux_panes, h, hc],
    fun h => by simp [get_live_agents, h],
    fun c s h hc => by simp [get_live_agents, h, hc]⟩

/-- A world in which every external invocation raises. -/
def wExn : World :=
  ⟨SubRes.exn, SubRes.exn, SubRes.exn, fun _ => SubRes.exn⟩

/-- A world in which every external invocation exits with status 1. -/
def wFailCode : World :=
  ⟨SubRes.ret 1 "", SubRes.ret 1 "", SubRes.ret 1 "", fun _ => SubRes.ret 1 ""⟩

/-- Witness for C5: both failure modes, on both readers, at concrete
worlds. -/
theorem C5_witness :
    get_tmux_panes wExn = [] ∧ get_live_agents wExn = [] ∧
    get_tmux_panes wFailCode = [] ∧ get_live_agents wFailCode = [] := by
  exact ⟨(C5_list_panes_never_raises wExn).1 rfl,
    (C5_list_panes_never_raises wExn).2.2.1 rfl,
    (C5_list_panes_never_raises wFailCode).2.1 1 "" rfl (by decide),
    (C5_list_panes_never_raises wFailCode).2.2.2 1 "" rfl (by decide)⟩

/-- C1: when none of the three send-keys invocations raises,
`send_message_to_pane` issues exactly one keystroke-send followed by two
separate submit signals, and returns `true` iff the keystroke-send exited
with 0 and at least one of the two submit signals exited with 0. -/
theorem C1_deliver_to_pane_or_semantics :
    ∀ (w : World) (k : Nat) (pid msg : String) (c1 c2 c3 : Int) (s1 s2 s3 : String),
      w.sendRes k = SubRes.ret c1 s1 →
      w.sendRes (k + 1) = SubRes.ret c2 s2 →
      w.sendRes (k + 2) = SubRes.ret c3 s3 →
      (send_message_to_pane w k pid msg).calls =
        [Call.sendKeys pid [msg], Call.sendKeys pid ["C-m"],
         Call.sendKeys pid ["C-m"]] ∧
      ((send_message_to_pane w k pid msg).ok = true ↔
        c1 = 0 ∧ (c2 = 0 ∨ c3 = 0)) := by
  intro w k pid msg c1 c2 c3 s1 s2 s3 h1 h2 h3
  unfold send_message_to_pane
  rw [h1, h2, h3]
  refine ⟨rfl, ?_⟩
  simp [Bool.and_eq_true, Bool.or_eq_true]

/-- A world realizing the spec scenario for C1: keystroke-send succeeds,
first submit fails (exit 1), second submit succeeds. -/
def wC1 : World :=
  ⟨SubRes.exn, SubRes.exn, SubRes.exn,
    fun k => if k = 0 then SubRes.ret 0 "" else
      if k = 1 then SubRes.ret 1 "" else SubRes.ret 0 ""⟩

/-- Witness for C1 (the spec's scenario): send ok, first confirm failed,
second confirm ok — overall result `true`, with the three-call trace. -/
theorem C1_witness :
    (send_message_to_pane wC1 0 "%1" "hello").calls =
      [Call.sendKeys "%1" ["hello"], Call.sendKeys "%1" ["C-m"],
       Call.sendKeys "%1" ["C-m"]] ∧
    (send_message_to_pane wC1 0 "%1" "hello").ok = true := by
  have h := C1_deliver_to_pane_or_semantics wC1 0 "%1" "hello" 0 1 0 "" "" ""
    rfl rfl rfl
  exact ⟨h.1, h.2.mpr ⟨rfl, Or.inr rfl⟩⟩

/-- C4: the inventory parser produces exactly one pane per valid line in
line order (`filterMap` over the split lines of the stripped stdout); the
split is capped at 3 fields, so a path containing `':'` survives intact as
the third field; a line that does not yield exactly 3 fields contributes
nothing. -/
theorem C4_parser_one_pane_per_line :
    (∀ w out, w.listPanesRes = SubRes.ret 0 out →
      get_tmux_panes w = (pySplitNL (pyStrip out)).filterMap parseTmuxLine?) ∧
    (∀ a b c : String, ':' ∉ a.data → ':' ∉ b.data →
      parseTmuxLine? (a ++ ":" ++ b ++ ":" ++ c) = some ⟨a, b, c⟩) ∧
    (∀ line, (pySplit2 ':' line).length ≠ 3 → parseTmuxLine? line = none) := by
  refine ⟨?_, ?_, ?_⟩
  · intro w out h
    simp [get_tmux_panes, h, collectPanes_eq_filterMap]
  · intro a b c h1 h2
    have hs := pySplit2_wellformed a b c h1 h2
    have hne : ¬(a ++ ":" ++ b ++ ":" ++ c = "") := by
      intro he
      rw [he] at hs
      have h0 : pySplit2 ':' "" = [""] := rfl
      rw [h0] at hs
      simp at hs
    unfold parseTmuxLine?
    rw [if_neg hne, hs]
  · intro line h
    unfold parseTmuxLine?
    by_cases he : line = ""
    · simp [he]
    · rw [if_neg he]
      split
      · next a b c heq => rw [heq] at h; simp at h
      · rfl

/-- A world whose inventory query succeeds with the given stdout and whose
other invocations raise. -/
def wInv (out : String) : World :=
  ⟨SubRes.ret 0 out, SubRes.exn, SubRes.exn, fun _ => SubRes.exn⟩

/-- Witness for C4: a concrete well-formed line whose path contains `':'`,
a concrete malformed line, and the parse of a concrete two-line output. -/
theorem C4_witness :
    parseTmuxLine? ("%1" ++ ":" ++ "claude" ++ ":" ++ "/home:user") =
      some ⟨"%1", "claude", "/home:user"⟩ ∧
    parseTmuxLine? "garbage" = none ∧
    get_tmux_panes (wInv "%1:claude:/home/user\n%2:node:/srv/app") =
      (pySplitNL (pyStrip "%1:claude:/home/user\n%2:node:/srv/app")).filterMap
        parseTmuxLine? := by
  exact ⟨C4_parser_one_pane_per_line.2.1 "%1" "claude" "/home:user"
      (by decide) (by decide),
    C4_parser_one_pane_per_line.2.2 "garbage" (by decide),
    C4_parser_one_pane_per_line.1 _ _ rfl⟩

/-- Per-pane delivery results of the broadcast loop, in attempt order. -/
def loopResults (w : World) (m : String) : Nat → List Pane → List Bool
  | _, [] => []
  | k, p :: ps =>
    let r := send_message_to_pane w k p.pane_id m
    r.ok :: loopResults w m r.next ps

theorem sendLoop_successes (w : World) (m : String) :
    ∀ (panes : List Pane) (k : Nat),
      (sendLoop w m k panes).1 = (loopResults w m k panes).count true := by
  intro panes
  induction panes with
  | nil => intro k; simp [sendLoop, loopResults]
  | cons p ps ih =>
    intro k
    simp only [sendLoop, loopResults, ih]
    cases (send_message_to_pane w k p.pane_id m).ok <;>
      simp [List.count_cons, Nat.add_comm]

theorem sendLoop_attempts (w : World) (m : String) :
    ∀ (panes : List Pane) (k : Nat),
      (sendLoop w m k panes).2.1 = panes.map Pane.pane_id := by
  intro panes
  induction panes with
  | nil => intro k; simp [sendLoop]
  | cons p ps ih => intro k; simp [sendLoop, ih]

theorem listPanes_not_mem_send_calls (w : World) (k : Nat) (pid m : String) :
    Call.listPanes ∉ (send_message_to_pane w k pid m).calls := by
  unfold send_message_to_pane
  cases w.sendRes k with
  | exn => simp
  | ret c1 s1 =>
    cases w.sendRes (k + 1) with
    | exn => simp
    | ret c2 s2 =>
      cases w.sendRes (k + 2) with
      | exn => simp
      | ret c3 s3 => simp

theorem listPanes_not_mem_loop (w : World) (m : String) :
    ∀ (panes : List Pane) (k : Nat),
      Call.listPanes ∉ (sendLoop w m k panes).2.2.1 := by
  intro panes
  induction panes with
  | nil => intro k; simp [sendLoop]
  | cons p ps ih =>
    intro k
    simp only [sendLoop, List.mem_append]
    push_neg
    exact ⟨listPanes_not_mem_send_calls w k p.pane_id m, ih _⟩

/-- C2 (amended): `send_to_all_panes` returns the boolean
`success_count > 0`; `successes` is the number of panes whose delivery
attempt returned `true`, `total` is the size of the inventory snapshot —
but these two counters are only printed, and the empty-inventory and
total-failure outcomes both return `false`. -/
theorem C2_broadcast_counts :
    ∀ (w : World) (k : Nat) (m : String),
      (send_to_all_panes w k m).ok =
        decide (0 < (send_to_all_panes w k m).successes) ∧
      (send_to_all_panes w k m).successes =
        (loopResults w m k (get_tmux_panes w)).count true ∧
      (send_to_all_panes w k m).total = (get_tmux_panes w).length ∧
      ((send_to_all_panes w k m).noPanes = true ↔
        (send_to_all_panes w k m).total = 0) := by
  intro w k m
  unfold send_to_all_panes
  by_cases h : (get_tmux_panes w).isEmpty
  · have he : get_tmux_panes w = [] := List.isEmpty_iff.mp h
    simp [h, he, loopResults]
  · have he : get_tmux_panes w ≠ [] := fun hc => h (by simp [hc])
    simp only [h, if_false]
    refine ⟨rfl, sendLoop_successes w m _ k, rfl, ?_⟩
    simp [List.length_eq_zero, he]

/-- A world whose inventory is empty (query succeeds with empty stdout). -/
def wEmptyInv : World :=
  ⟨SubRes.ret 0 "", SubRes.exn, SubRes.exn, fun _ => SubRes.exn⟩

/-- A world with a three-pane inventory in which every send-keys
invocation exits with status 1, so every delivery fails. -/
def wAllFail : World :=
  ⟨SubRes.ret 0 "%1:a:/x\n%2:b:/y\n%3:c:/z", SubRes.exn, SubRes.exn,
    fun _ => SubRes.ret 1 ""⟩

/-- Counterexample for C2: the value `send_to_all_panes` returns to its
caller is the single boolean `success_count > 0`, and it is `false` both
on an empty inventory (total 0) and on total failure over a three-pane
inventory (successes 0, total 3) — the pair is not returned, so the two
outcomes are not distinguishable from the return value. -/
theorem C2_counterexample :
    (send_to_all_panes wEmptyInv 0 "m").ok = false ∧
    (send_to_all_panes wAllFail 0 "m").ok = false ∧
    (send_to_all_panes wEmptyInv 0 "m").total = 0 ∧
    (send_to_all_panes wAllFail 0 "m").successes = 0 ∧
    (send_to_all_panes wAllFail 0 "m").total = 3 := by
  refine ⟨rfl, rfl, rfl, rfl, rfl⟩

/-- A world with a three-pane inventory in which pane 2's keystroke-send
(the fourth send-keys invocation overall) fails and everything else
succeeds: the spec's `(2, 3)` broadcast scenario. -/
def wPane2Fails : World :=
  ⟨SubRes.ret 0 "%1:a:/x\n%2:b:/y\n%3:c:/z", SubRes.exn, SubRes.exn,
    fun k => if k = 3 then SubRes.ret 1 "" else SubRes.ret 0 ""⟩

/-- Witness for C2 (amended): the spec scenario — three panes, pane 2's
send fails — yields successes 2, total 3, return value `true`, and all
three panes were attempted. -/
theorem C2_witness :
    (send_to_all_panes wPane2Fails 0 "m").successes = 2 ∧
    (send_to_all_panes wPane2Fails 0 "m").total = 3 ∧
    (send_to_all_panes wPane2Fails 0 "m").ok = true ∧
    (send_to_all_panes wPane2Fails 0 "m").attempts = ["%1", "%2", "%3"] := by
  have h := C2_broadcast_counts wPane2Fails 0 "m"
  refine ⟨?_, ?_, ?_, rfl⟩
  · rw [h.2.1]; rfl
  · rw [h.2.2.1]; rfl
  · rw [h.1]; rfl

/-- C3: `send_to_all_panes` issues the inventory query exactly once, then
attempts delivery to every pane of that snapshot in the snapshot's order,
and — for every pane list and every pattern of per-pane outcomes — a
failure on one pane never suppresses the attempt on any later pane. -/
theorem C3_broadcast_no_short_circuit :
    ∀ (w : World) (k : Nat) (m : String),
      (send_to_all_panes w k m).attempts = (get_tmux_panes w).map Pane.pane_id ∧
      (send_to_all_panes w k m).calls.count Call.listPanes = 1 ∧
      (∀ (panes : List Pane) (k0 : Nat),
        (sendLoop w m k0 panes).2.1 = panes.map Pane.pane_id) := by
  intro w k m
  refine ⟨?_, ?_, sendLoop_attempts w m⟩
  · unfold send_to_all_panes
    by_cases h : (get_tmux_panes w).isEmpty
    · have he : get_tmux_panes w = [] := List.isEmpty_iff.mp h
      simp [h, he]
    · simp only [h, if_false]
      exact sendLoop_attempts w m _ k
  · unfold send_to_all_panes
    by_cases h : (get_tmux_panes w).isEmpty
    · simp [h]
    · simp only [h, if_false]
      simp [List.count_cons,
        List.count_eq_zero.mpr (listPanes_not_mem_loop w m _ k)]

theorem splitCapAux_no_sep (sep : Char) (l : List Char) :
    ∀ (acc : List Char) (cap : Nat), (∀ c ∈ l, ¬(c = sep)) →
      splitCapAux sep cap l acc = [acc.reverse ++ l] := by
  induction l with
  | nil => intro acc cap _; simp [splitCapAux]
  | cons c cs ih =>
    intro acc cap h
    rw [splitCapAux_cons_ne sep c cap cs acc (h c (List.mem_cons_self _ _)),
      ih (c :: acc) cap (fun x hx => h x (List.mem_cons_of_mem _ hx))]
    simp

theorem no_colon_of_pyStrip_empty (line : String) (h : pyStrip line = "") :
    ':' ∉ line.data := by
  have hdata : ((line.data.dropWhile pyIsSpace).reverse.dropWhile pyIsSpace).reverse
      = [] := congrArg String.data h
  have hdrop : ∀ x ∈ line.data.dropWhile pyIsSpace, pyIsSpace x := by
    intro x hx
    have := (List.dropWhile_eq_nil_iff).mp (List.reverse_eq_nil_iff.mp hdata)
    exact this x (List.mem_reverse.mpr hx)
  have hall : ∀ x ∈ line.data, pyIsSpace x := by
    intro x hx
    rw [← List.takeWhile_append_dropWhile (p := pyIsSpace) (l := line.data)] at hx
    rcases List.mem_append.mp hx with hx | hx
    · exact List.mem_takeWhile_imp hx
    · exact hdrop x hx
  intro hc
  have : pyIsSpace ':' = true := hall _ hc
  simp [pyIsSpace] at this

theorem detectStep_eq (d : List (String × List Pane)) (line : String) :
    detectStep d line =
      match parseTmuxLine? line with
      | some p => dictAppend d p.command (stripPath p)
      | none => d := by
  unfold detectStep parseTmuxLine?
  by_cases hs : pyStrip line = ""
  · rw [if_pos hs]
    by_cases he : line = ""
    · simp [he]
    · rw [if_neg he]
      have hnc : ':' ∉ line.data := no_colon_of_pyStrip_empty line hs
      have h1 : pySplit2 ':' line = [line] := by
        unfold pySplit2
        rw [splitCapAux_no_sep ':' line.data [] 2
          (fun c hc hc2 => hnc (hc2 ▸ hc))]
        simp
      rw [h1]
  · rw [if_neg hs]
    have he : ¬(line = "") := fun h0 => hs (by rw [h0]; rfl)
    rw [if_neg he]
    generalize pySplit2 ':' line = L
    rcases L with _ | ⟨a, _ | ⟨b, _ | ⟨c, _ | rest⟩⟩⟩ <;> rfl

theorem mem_dictEntries_dictAppend (key : String) (v x : Pane) :
    ∀ d, x ∈ dictEntries (dictAppend d key v) ↔ x ∈ dictEntries d ∨ x = v := by
  intro d
  induction d with
  | nil => simp [dictAppend, dictEntries]
  | cons kv rest ih =>
    obtain ⟨k, vs⟩ := kv
    by_cases h : k = key
    · simp only [dictAppend, if_pos h, dictEntries, List.map_cons,
        List.flatten_cons, List.mem_append, List.mem_singleton]
      tauto
    · have hr : x ∈ ((dictAppend rest key v).map Prod.snd).flatten ↔
          x ∈ (rest.map Prod.snd).flatten ∨ x = v := ih
      simp only [dictAppend, if_neg h, dictEntries, List.map_cons,
        List.flatten_cons, List.mem_append]
      tauto

theorem mem_entries_foldl (x : Pane) :
    ∀ (ls : List String) (d : List (String × List Pane)),
      x ∈ dictEntries (ls.foldl detectStep d) ↔
        x ∈ dictEntries d ∨ ∃ q ∈ ls.filterMap parseTmuxLine?, x = stripPath q := by
  intro ls
  induction ls with
  | nil => intro d; simp
  | cons line ls ih =>
    intro d
    rw [List.foldl_cons, ih, detectStep_eq]
    cases hp : parseTmuxLine? line with
    | none => simp [List.filterMap_cons, hp]
    | some p =>
      simp only [List.filterMap_cons, hp, mem_dictEntries_dictAppend,
        List.mem_cons]
      constructor
      · rintro ((hx | hx) | ⟨q, hq, hxq⟩)
        · exact Or.inl hx
        · exact Or.inr ⟨p, Or.inl rfl, hx⟩
        · exact Or.inr ⟨q, Or.inr hq, hxq⟩
      · rintro (hx | ⟨q, hq | hq, hxq⟩)
        · exact Or.inl (Or.inl hx)
        · exact Or.inl (Or.inr (hq ▸ hxq))
        · exact Or.inr ⟨q, hq, hxq⟩

/-- C8 (amended): the CLI parser and the discovery parser agree on every
query output up to one difference: the discovery parser additionally
strips whitespace from the path field.  A triple is in the discovery
result exactly when a CLI triple with the same id and command, and a path
stripping to the discovery path, is in the CLI result; both readers
consume the same parse of the same query text. -/
theorem C8_parsers_agree_up_to_strip :
    ∀ (out : String) (x : Pane),
      (x ∈ dictEntries (detect_agents out) ↔
        ∃ q ∈ collectPanes (pySplitNL (pyStrip out)), x = stripPath q) ∧
      (∀ w, w.liveRes = SubRes.ret 0 out → get_live_agents w = detect_agents out) ∧
      (∀ w, w.listPanesRes = SubRes.ret 0 out →
        get_tmux_panes w = collectPanes (pySplitNL (pyStrip out))) := by
  intro out x
  refine ⟨?_, fun w h => by simp [get_live_agents, h],
    fun w h => by simp [get_tmux_panes, h]⟩
  unfold detect_agents
  rw [mem_entries_foldl x _ [], collectPanes_eq_filterMap]
  simp [dictEntries]

/-- Counterexample for C8: on the output line `"%1:bash: /a"` (leading
space in the path) the CLI parser keeps the path `" /a"` while the
discovery parser strips it to `"/a"`, so each side produces a triple the
other does not. -/
theorem C8_counterexample :
    collectPanes (pySplitNL (pyStrip "%1:bash: /a")) = [⟨"%1", "bash", " /a"⟩] ∧
    dictEntries (detect_agents "%1:bash: /a") = [⟨"%1", "bash", "/a"⟩] ∧
    (⟨"%1", "bash", "/a"⟩ : Pane) ∉ collectPanes (pySplitNL (pyStrip "%1:bash: /a")) ∧
    (⟨"%1", "bash", " /a"⟩ : Pane) ∉ dictEntries (detect_agents "%1:bash: /a") := by
  refine ⟨rfl, rfl, by decide, by decide⟩

/-- A world whose discovery-side query succeeds with the given stdout. -/
def wLive (out : String) : World :=
  ⟨SubRes.exn, SubRes.exn, SubRes.ret 0 out, fun _ => SubRes.exn⟩

/-- Witness for C8 (amended): on the spec's two-line sample output, the
`%1` triple is in the discovery result, and the two readers reduce to the
two parsers on concrete worlds. -/
theorem C8_witness :
    (⟨"%1", "claude", "/home/user"⟩ : Pane) ∈
      dictEntries (detect_agents "%1:claude:/home/user\n%2:node:/srv/app") ∧
    get_live_agents (wLive "%1:claude:/home/user\n%2:node:/srv/app") =
      detect_agents "%1:claude:/home/user\n%2:node:/srv/app" ∧
    get_tmux_panes (wInv "%1:claude:/home/user\n%2:node:/srv/app") =
      collectPanes (pySplitNL (pyStrip "%1:claude:/home/user\n%2:node:/srv/app")) := by
  refine ⟨(C8_parsers_agree_up_to_strip _ _).1.mpr
      ⟨⟨"%1", "claude", "/home/user"⟩, by decide, by decide⟩,
    (C8_parsers_agree_up_to_strip "%1:claude:/home/user\n%2:node:/srv/app"
      ⟨"", "", ""⟩).2.1 _ rfl,
    (C8_parsers_agree_up_to_strip "%1:claude:/home/user\n%2:node:/srv/app"
      ⟨"", "", ""⟩).2.2 _ rfl⟩

theorem mainRun_all_eval (w : World) (p : String) (rest : List String)
    (h : 1 ≤ rest.length) :
    mainRun w (p :: "--all" :: rest) =
      ⟨if (send_to_all_panes w 0 (format_message_with_metadata (pyJoin rest)
          (get_current_pane_info w))).ok then 0 else 1, false,
        Call.displayMsg :: (send_to_all_panes w 0 (format_message_with_metadata
          (pyJoin rest) (get_current_pane_info w))).calls⟩ := by
  simp [mainRun, h]

theorem mainRun_pane_eval (w : World) (p pid m0 : String) (ms : List String) :
    mainRun w (p :: "--pane" :: pid :: m0 :: ms) =
      ⟨if (send_message_to_pane w 0 pid (format_message_with_metadata
          (pyJoin (m0 :: ms)) (get_current_pane_info w))).ok then 0 else 1, false,
        Call.displayMsg :: (send_message_to_pane w 0 pid
          (format_message_with_metadata (pyJoin (m0 :: ms))
            (get_current_pane_info w))).calls⟩ := by
  simp [mainRun]

theorem mainRun_status_eval (w : World) (p : String) (rest : List String) :
    mainRun w (p :: "--status" :: rest) =
      ⟨0, false, [Call.listSessions, Call.listPanes]⟩ := by
  simp [mainRun]

theorem mainRun_command_eval (w : World) (p : String) (rest : List String)
    (hmem : "--pane" ∈ p :: "--command" :: rest)
    (hlen : 5 ≤ (p :: "--command" :: rest).length) :
    mainRun w (p :: "--command" :: rest) =
      if (p :: "--command" :: rest).indexOf "--pane" + 1 <
          (p :: "--command" :: rest).length then
        ⟨if (execute_command_in_pane w 0
            ((p :: "--command" :: rest).getD
              ((p :: "--command" :: rest).indexOf "--pane" + 1) "")
            (pyJoin (((p :: "--command" :: rest).drop 2).take
              ((p :: "--command" :: rest).indexOf "--pane" - 2)))).ok
          then 0 else 1, false,
          (execute_command_in_pane w 0
            ((p :: "--command" :: rest).getD
              ((p :: "--command" :: rest).indexOf "--pane" + 1) "")
            (pyJoin (((p :: "--command" :: rest).drop 2).take
              ((p :: "--command" :: rest).indexOf "--pane" - 2)))).calls⟩
      else ⟨1, false, []⟩ := by
  have hlen3 : 3 ≤ rest.length := by simpa using hlen
  simp [mainRun, hmem, hlen]
  intro hc
  exact absurd hlen3 (Nat.not_le.mpr hc)

theorem mainRun_legacy_eval (w : World) (p a1 dir m0 : String) (ms : List String)
    (h1 : ¬(a1 = "--all")) (h2 : ¬(a1 = "--pane")) (h3 : ¬(a1 = "--command"))
    (h4 : ¬(a1 = "--status")) :
    mainRun w (p :: a1 :: dir :: m0 :: ms) =
      match find_agent w a1 dir with
      | none => ⟨1, false, [Call.listPanes]⟩
      | some agent =>
        ⟨if (send_message_to_pane w 0 agent.pane_id (format_message_with_metadata
            (pyJoin (m0 :: ms)) (get_current_pane_info w))).ok then 0 else 1, false,
          Call.listPanes :: Call.displayMsg ::
            (send_message_to_pane w 0 agent.pane_id (format_message_with_metadata
              (pyJoin (m0 :: ms)) (get_current_pane_info w))).calls⟩ := by
  simp [mainRun, h1, h2, h3, h4]

theorem mainRun_exit01 (w : World) :
    ∀ argv, (mainRun w argv).exitCode = 0 ∨ (mainRun w argv).exitCode = 1 := by
  intro argv
  rcases argv with _ | ⟨p, _ | ⟨a1, _ | ⟨r1, _ | ⟨r2, rs⟩⟩⟩⟩
  · right; rfl
  · right; rfl
  · simp only [mainRun]
    split_ifs <;> simp
  · cases hfa : find_agent w a1 r1 with
    | none => simp only [mainRun]; split_ifs <;> simp [hfa]
    | some pa => simp only [mainRun]; split_ifs <;> simp [hfa]
  · cases hfa : find_agent w a1 r1 with
    | none => simp only [mainRun]; split_ifs <;> simp [hfa]
    | some pa => simp only [mainRun]; split_ifs <;> simp [hfa]

theorem mainRun_usage_eval (w : World) (argv : List String)
    (h : ¬recognizable argv) : mainRun w argv = ⟨1, true, []⟩ := by
  rcases argv with _ | ⟨p, _ | ⟨a1, _ | ⟨b, _ | ⟨c, rs⟩⟩⟩⟩
  · rfl
  · rfl
  · have h4 : ¬(a1 = "--status") := fun he =>
      h ⟨by simp, Or.inr (Or.inr (Or.inr (Or.inl (by simp [he]))))⟩
    simp [mainRun, h4]
  · have h4 : ¬(a1 = "--status") := fun he =>
      h ⟨by simp, Or.inr (Or.inr (Or.inr (Or.inl (by simp [he]))))⟩
    have h1 : ¬(a1 = "--all") := fun he =>
      h ⟨by simp, Or.inl ⟨by simp [he], by simp⟩⟩
    simp [mainRun, h1, h4]
  · exact absurd ⟨by simp, Or.inr (Or.inr (Or.inr (Or.inr (by simp))))⟩ h

theorem execute_command_calls (w : World) (k : Nat) (pid cmd : String) :
    (execute_command_in_pane w k pid cmd).calls =
      [Call.sendKeys pid [cmd, "C-m"]] := by
  unfold execute_command_in_pane
  cases w.sendRes k <;> rfl

/-- C9: the CLI exits 0 exactly when the selected operation succeeded and 1
on resolution failure, delivery failure, or malformed invocation; every
argument vector matching no recognizable form prints the usage text and
exits 1. -/
theorem C9_cli_exit_codes :
    ∀ (w : World) (argv : List String),
      ((mainRun w argv).exitCode = 0 ∨ (mainRun w argv).exitCode = 1) ∧
      (¬recognizable argv →
        (mainRun w argv).usage = true ∧ (mainRun w argv).exitCode = 1) ∧
      (∀ p rest, argv = p :: "--all" :: rest → 1 ≤ rest.length →
        ((mainRun w argv).exitCode = 0 ↔
          (send_to_all_panes w 0 (format_message_with_metadata (pyJoin rest)
            (get_current_pane_info w))).ok = true)) ∧
      (∀ p pid m0 ms, argv = p :: "--pane" :: pid :: m0 :: ms →
        ((mainRun w argv).exitCode = 0 ↔
          (send_message_to_pane w 0 pid (format_message_with_metadata
            (pyJoin (m0 :: ms)) (get_current_pane_info w))).ok = true)) ∧
      (∀ p rest, argv = p :: "--status" :: rest →
        (mainRun w argv).exitCode = 0) ∧
      (∀ p rest, argv = p :: "--command" :: rest → "--pane" ∈ argv →
        5 ≤ argv.length →
        ((argv.indexOf "--pane" + 1 < argv.length →
          ((mainRun w argv).exitCode = 0 ↔
            (execute_command_in_pane w 0 (argv.getD (argv.indexOf "--pane" + 1) "")
              (pyJoin ((argv.drop 2).take (argv.indexOf "--pane" - 2)))).ok = true)) ∧
          (¬(argv.indexOf "--pane" + 1 < argv.length) →
            (mainRun w argv).exitCode = 1))) ∧
      (∀ p a1 dir m0 ms, argv = p :: a1 :: dir :: m0 :: ms →
        ¬(a1 = "--all") → ¬(a1 = "--pane") → ¬(a1 = "--command") →
        ¬(a1 = "--status") →
        ((find_agent w a1 dir = none → (mainRun w argv).exitCode = 1) ∧
          (∀ pa, find_agent w a1 dir = some pa →
            ((mainRun w argv).exitCode = 0 ↔
              (send_message_to_pane w 0 pa.pane_id (format_message_with_metadata
                (pyJoin (m0 :: ms)) (get_current_pane_info w))).ok = true)))) := by
  intro w argv
  refine ⟨mainRun_exit01 w argv,
    fun h => by rw [mainRun_usage_eval w argv h]; exact ⟨rfl, rfl⟩,
    ?_, ?_, ?_, ?_, ?_⟩
  · rintro p rest rfl hlen
    rw [mainRun_all_eval w p rest hlen]
    cases hok : (send_to_all_panes w 0 (format_message_with_metadata
      (pyJoin rest) (get_current_pane_info w))).ok <;> simp [hok]
  · rintro p pid m0 ms rfl
    rw [mainRun_pane_eval w p pid m0 ms]
    cases hok : (send_message_to_pane w 0 pid (format_message_with_metadata
      (pyJoin (m0 :: ms)) (get_current_pane_info w))).ok <;> simp [hok]
  · rintro p rest rfl
    rw [mainRun_status_eval w p rest]
  · rintro p rest rfl hmem hlen
    rw [mainRun_command_eval w p rest hmem hlen]
    constructor
    · intro hlt
      rw [if_pos hlt]
      cases hok : (execute_command_in_pane w 0
        ((p :: "--command" :: rest).getD
          ((p :: "--command" :: rest).indexOf "--pane" + 1) "")
        (pyJoin (((p :: "--command" :: rest).drop 2).take
          ((p :: "--command" :: rest).indexOf "--pane" - 2)))).ok <;> simp [hok]
    · intro hnlt
      rw [if_neg hnlt]
  · rintro p a1 dir m0 ms rfl h1 h2 h3 h4
    rw [mainRun_legacy_eval w p a1 dir m0 ms h1 h2 h3 h4]
    constructor
    · intro hnone
      rw [hnone]
    · intro pa hsome
      rw [hsome]
      cases hok : (send_message_to_pane w 0 pa.pane_id
        (format_message_with_metadata (pyJoin (m0 :: ms))
          (get_current_pane_info w))).ok <;> simp [hok]

/-- Witness for C9: `--status` exits 0; the bare program name prints usage
and exits 1. -/
theorem C9_witness :
    (mainRun wExn ["prog", "--status"]).exitCode = 0 ∧
    (mainRun wExn ["prog"]).usage = true ∧
    (mainRun wExn ["prog"]).exitCode = 1 := by
  have h := C9_cli_exit_codes wExn ["prog", "--status"]
  have h2 := C9_cli_exit_codes wExn ["prog"]
  exact ⟨h.2.2.2.2.1 "prog" [] rfl, (h2.2.1 (by decide)).1,
    (h2.2.1 (by decide)).2⟩

theorem indexOf_append_of_mem_left (l1 l2 : List String) (a : String)
    (h : a ∈ l1) : (l1 ++ l2).indexOf a = l1.indexOf a := by
  induction l1 with
  | nil => cases h
  | cons x xs ih =>
    by_cases hx : x = a
    · subst hx
      rw [List.cons_append, List.indexOf_cons_self, List.indexOf_cons_self]
    · have hmem : a ∈ xs := by
        rcases List.mem_cons.mp h with h | h
        · exact absurd h.symm hx
        · exact h
      rw [List.cons_append, List.indexOf_cons_ne _ hx, List.indexOf_cons_ne _ hx,
        ih hmem]

theorem getD_indexOf_self (l : List String) (a : String) (h : a ∈ l) :
    l.getD (l.indexOf a) "" = a ∧ ∀ j < l.indexOf a, l.getD j "" ≠ a := by
  induction l with
  | nil => cases h
  | cons x xs ih =>
    by_cases hx : x = a
    · subst hx
      simp [List.indexOf_cons_self]
    · have hmem : a ∈ xs := by
        rcases List.mem_cons.mp h with h | h
        · exact absurd h.symm hx
        · exact h
      obtain ⟨ih1, ih2⟩ := ih hmem
      rw [List.indexOf_cons_ne _ hx]
      refine ⟨by simpa using ih1, ?_⟩
      intro j hj
      cases j with
      | zero => simpa using hx
      | succ j => simpa using ih2 j (Nat.lt_of_succ_lt_succ hj)

theorem take_append_of_le (l1 l2 : List String) (n : Nat) (h : n ≤ l1.length) :
    (l1 ++ l2).take n = l1.take n := by
  rw [List.take_append_eq_append_take, Nat.sub_eq_zero_of_le h]
  simp

/-- C10: in the `--command` form, the command string sent to the pane is
the space-join of exactly the arguments strictly between `--command` and
the first occurrence of `--pane`; the pane id is the argument right after
that `--pane`; and any arguments appearing after the pane id are ignored —
appending them changes nothing, and the single send-keys call carries only
the slice before `--pane`. -/
theorem C10_command_slice :
    ∀ (w : World) (p : String) (rest extra : List String),
      "--pane" ∈ p :: "--command" :: rest →
      5 ≤ (p :: "--command" :: rest).length →
      (p :: "--command" :: rest).indexOf "--pane" + 1 <
        (p :: "--command" :: rest).length →
      ((mainRun w (p :: "--command" :: rest)).calls =
        [Call.sendKeys ((p :: "--command" :: rest).getD
            ((p :: "--command" :: rest).indexOf "--pane" + 1) "")
          [pyJoin (((p :: "--command" :: rest).drop 2).take
            ((p :: "--command" :: rest).indexOf "--pane" - 2)), "C-m"]]) ∧
      ((p :: "--command" :: rest).getD
          ((p :: "--command" :: rest).indexOf "--pane") "" = "--pane" ∧
        ∀ j < (p :: "--command" :: rest).indexOf "--pane",
          (p :: "--command" :: rest).getD j "" ≠ "--pane") ∧
      mainRun w ((p :: "--command" :: rest) ++ extra) =
        mainRun w (p :: "--command" :: rest) := by
  intro w p rest extra hmem hlen hlt
  have hn : (p :: "--command" :: rest).length = rest.length + 2 := rfl
  refine ⟨?_, getD_indexOf_self _ _ hmem, ?_⟩
  · rw [mainRun_command_eval w p rest hmem hlen, if_pos hlt]
    exact execute_command_calls w 0 _ _
  · have hmem2 : "--pane" ∈ p :: "--command" :: (rest ++ extra) := by
      have : "--pane" ∈ (p :: "--command" :: rest) ++ extra :=
        List.mem_append_left _ hmem
      exact this
    have hlen2 : 5 ≤ (p :: "--command" :: (rest ++ extra)).length := by
      simp only [List.length_cons, List.length_append]
      have h5 : 5 ≤ rest.length + 2 := hn ▸ hlen
      omega
    show mainRun w (p :: "--command" :: (rest ++ extra)) =
      mainRun w (p :: "--command" :: rest)
    rw [mainRun_command_eval w p (rest ++ extra) hmem2 hlen2,
      mainRun_command_eval w p rest hmem hlen, if_pos hlt]
    have e1 : (p :: "--command" :: (rest ++ extra)) =
        ((p :: "--command" :: rest) ++ extra) := rfl
    rw [e1, indexOf_append_of_mem_left _ _ _ hmem]
    have hlt' : (p :: "--command" :: rest).indexOf "--pane" + 1 <
        ((p :: "--command" :: rest) ++ extra).length := by
      rw [List.length_append]
      omega
    rw [if_pos hlt',
      List.getD_append _ _ _ _ hlt]
    have e3 : (((p :: "--command" :: rest) ++ extra).drop 2) = rest ++ extra := by
      have : ((p :: "--command" :: (rest ++ extra)).drop 2) = rest ++ extra := rfl
      rw [← e1]
      exact this
    rw [e3]
    have hle : (p :: "--command" :: rest).indexOf "--pane" - 2 ≤ rest.length := by
      have := hlt
      rw [hn] at this
      omega
    rw [take_append_of_le _ _ _ hle]
    have e4 : ((p :: "--command" :: rest).drop 2) = rest := rfl
    rw [e4]

/-- Witness for C10: a concrete `--command` invocation with a trailing
argument after the pane id — the single send-keys call carries only
`"echo hi"`, and appending further arguments leaves the run unchanged. -/
theorem C10_witness :
    (mainRun wExn ["prog", "--command", "echo", "hi", "--pane", "%2", "junk"]).calls =
      [Call.sendKeys "%2" ["echo hi", "C-m"]] ∧
    mainRun wExn (["prog", "--command", "echo", "hi", "--pane", "%2"] ++ ["x", "y"]) =
      mainRun wExn ["prog", "--command", "echo", "hi", "--pane", "%2"] := by
  have h1 := C10_command_slice wExn "prog" ["echo", "hi", "--pane", "%2", "junk"] []
    (by decide) (by decide) (by decide)
  have h2 := C10_command_slice wExn "prog" ["echo", "hi", "--pane", "%2"] ["x", "y"]
    (by decide) (by decide) (by decide)
  refine ⟨?_, h2.2.2⟩
  rw [h1.1]
  decide

end AgentComm
